import Mathlib

/-!
Verification of the search-trail state manager (src/src/lib.rs).

The Rust crate defines, through the code generator manage_numbers, one pair of
stores (plain and optional) per numeric type; all pairs share a single
clock, a single trail and a single stack of levels. Every generated
implementation is textually identical up to the scalar type, so we embed
one instantiation generically in the scalar type alpha. Rust Vec is
modelled by List in index order (element 0 first, push appends at the
end) except for the trail and the level stack, which are kept with the
most recently pushed element at the head of the list (the back of the
Rust Vec) because they are only ever pushed and popped at that end.
Panics (out-of-bounds indexing, Option unwrap, expect on Vec pop) are
modelled by returning none.
-/

/-- Mirrors struct Level (src/src/lib.rs lines 29-33): only the length of
the trail at the moment the level was started is recorded. No store
lengths are recorded. -/
structure Level where
  trail_size : Nat
  deriving Repr, DecidableEq

/-- Mirrors struct State$u (lines 158-166): index, clock and value of a
managed resource. -/
structure State (α : Type) where
  id : Nat
  clock : Nat
  value : α
  deriving Repr, DecidableEq

/-- Mirrors struct StateOption$u (lines 173-181). -/
structure StateOption (α : Type) where
  id : Nat
  clock : Nat
  value : Option α
  deriving Repr, DecidableEq

/-- Mirrors enum TrailEntry (lines 36-42), restricted to the two variants
of one scalar type (the claims under study are all per-type; entries of
other types are never produced nor consumed by the operations modelled
here). -/
inductive TrailEntry (α : Type) where
  | entry : State α → TrailEntry α
  | optionEntry : StateOption α → TrailEntry α
  deriving Repr, DecidableEq

/-- Mirrors struct StateManager (lines 76-94) for one scalar type: the
clock, the trail (head = back of the Rust Vec, i.e. newest entry), the
levels stack (head = top) and the two stores in index order. -/
structure StateManager (α : Type) where
  clock : Nat
  trail : List (TrailEntry α)
  levels : List Level
  numbers : List (State α)
  numbers_option : List (StateOption α)
  deriving Repr, DecidableEq

namespace StateManager

/-- Mirrors Default for StateManager (lines 96-110): clock 0, empty trail,
one root level with trail_size 0, empty stores. -/
def init (α : Type) : StateManager α :=
  { clock := 0, trail := [], levels := [{ trail_size := 0 }],
    numbers := [], numbers_option := [] }

/-- Mirrors save_state (lines 121-128): increment the clock and push a
level recording the current trail length. -/
def save_state {α : Type} (m : StateManager α) : StateManager α :=
  { m with clock := m.clock + 1,
           levels := { trail_size := m.trail.length } :: m.levels }

/-- Applies one trail entry during restore (lines 141-144): write the
archived state back at its own recorded index. In Rust this indexing
would panic out of bounds; that cannot happen because stores never
shrink, and List.set is a no-op there. -/
def applyEntry {α : Type} (m : StateManager α) : TrailEntry α → StateManager α
  | TrailEntry.entry st => { m with numbers := m.numbers.set st.id st }
  | TrailEntry.optionEntry st =>
      { m with numbers_option := m.numbers_option.set st.id st }

/-- Mirrors restore_state (lines 130-148) as compiled in release builds:
the debug_assert on line 131 is compiled out, so Vec::pop succeeds
whenever the levels stack is nonempty, including on the root level; the
expect on line 135 (hence none here) fires only when the stack is
already empty. The entries appended since the popped level are replayed
newest first (head first in our representation) and the trail is
truncated to the recorded length. -/
def restore_state {α : Type} (m : StateManager α) : Option (StateManager α) :=
  match m.levels with
  | [] => none
  | level :: rest =>
    let n := m.trail.length - level.trail_size
    let m1 := (m.trail.take n).foldl applyEntry { m with levels := rest }
    some { m1 with trail := m1.trail.drop n }

/-- Mirrors manage_$u (lines 220-228): append a cell whose clock is the
current clock; returns the new manager and the index handle. -/
def manage {α : Type} (m : StateManager α) (value : α) : StateManager α × Nat :=
  let id := m.numbers.length
  ({ m with numbers := m.numbers ++ [{ id := id, clock := m.clock, value := value }] },
   id)

/-- Mirrors get_$u (lines 229-231); none models the out-of-bounds panic. -/
def get {α : Type} (m : StateManager α) (id : Nat) : Option α :=
  (m.numbers.get? id).map State.value

/-- Mirrors set_$u (lines 232-247): no-op when the value is unchanged;
otherwise archive the previous cell on the trail when its clock is older
than the manager clock, else overwrite in place. Returns the written
value, none modelling the out-of-bounds panic. -/
def set {α : Type} [DecidableEq α] (m : StateManager α) (id : Nat) (value : α) :
    Option (StateManager α × α) :=
  match m.numbers.get? id with
  | none => none
  | some curr =>
    if value ≠ curr.value then
      if curr.clock < m.clock then
        some ({ m with
                  trail := TrailEntry.entry curr :: m.trail,
                  numbers := m.numbers.set id
                    { id := id, clock := m.clock, value := value } }, value)
      else
        some ({ m with numbers := m.numbers.set id { curr with value := value } },
              value)
    else
      some (m, value)

/-- Mirrors increment_$u (lines 249-251): set the cell to its value plus
one. Integer overflow wraps in release builds, which the additive group
structure of the scalar model (for example ZMod (2 ^ 64)) captures. -/
def increment {α : Type} [DecidableEq α] [Add α] [One α]
    (m : StateManager α) (id : Nat) : Option (StateManager α × α) :=
  match get m id with
  | none => none
  | some v => set m id (v + 1)

/-- Mirrors decrement_$u (lines 253-255). -/
def decrement {α : Type} [DecidableEq α] [Sub α] [One α]
    (m : StateManager α) (id : Nat) : Option (StateManager α × α) :=
  match get m id with
  | none => none
  | some v => set m id (v - 1)

/-- Mirrors manage_option_$u (lines 259-267). -/
def manage_option {α : Type} (m : StateManager α) (value : Option α) :
    StateManager α × Nat :=
  let id := m.numbers_option.length
  ({ m with numbers_option :=
      m.numbers_option ++ [{ id := id, clock := m.clock, value := value }] },
   id)

/-- Mirrors get_option_$u (lines 269-271). -/
def get_option {α : Type} (m : StateManager α) (id : Nat) : Option (Option α) :=
  (m.numbers_option.get? id).map StateOption.value

/-- Mirrors set_option_$u (lines 273-288), same shape as set. -/
def setOption {α : Type} [DecidableEq α] (m : StateManager α) (id : Nat)
    (value : Option α) : Option (StateManager α × Option α) :=
  match m.numbers_option.get? id with
  | none => none
  | some curr =>
    if value ≠ curr.value then
      if curr.clock < m.clock then
        some ({ m with
                  trail := TrailEntry.optionEntry curr :: m.trail,
                  numbers_option := m.numbers_option.set id
                    { id := id, clock := m.clock, value := value } }, value)
      else
        some ({ m with
                  numbers_option := m.numbers_option.set id
                    { curr with value := value } }, value)
    else
      some (m, value)

/-- Mirrors increment_option_$u (lines 290-294): unwrap the stored option
(none models the panic on a null cell), set it to the value plus one and
return that value. -/
def increment_option {α : Type} [DecidableEq α] [Add α] [One α]
    (m : StateManager α) (id : Nat) : Option (StateManager α × α) :=
  match m.numbers_option.get? id with
  | none => none
  | some st =>
    match st.value with
    | none => none
    | some v => (setOption m id (some (v + 1))).map (fun p => (p.1, v + 1))

/-- Mirrors decrement_option_$u (lines 296-300). -/
def decrement_option {α : Type} [DecidableEq α] [Sub α] [One α]
    (m : StateManager α) (id : Nat) : Option (StateManager α × α) :=
  match m.numbers_option.get? id with
  | none => none
  | some st =>
    match st.value with
    | none => none
    | some v => (setOption m id (some (v - 1))).map (fun p => (p.1, v - 1))

end StateManager

/-!
Boolean and optional boolean cells (lines 420-507) delegate to the usize
stores, encoding false as 0 and true as any nonzero value. usize is
modelled by Nat: the only values these wrappers store are 0 and 1, far
from the wrap-around of the 64-bit type.
-/

namespace StateManager

/-- Mirrors manage_bool (lines 443-445). -/
def manage_bool (m : StateManager Nat) (value : Bool) : StateManager Nat × Nat :=
  manage m (if value then 1 else 0)

/-- Mirrors get_bool (lines 447-449). -/
def get_bool (m : StateManager Nat) (id : Nat) : Option Bool :=
  (get m id).map (fun v => v != 0)

/-- Mirrors set_bool (lines 451-453). -/
def set_bool (m : StateManager Nat) (id : Nat) (value : Bool) :
    Option (StateManager Nat × Bool) :=
  (set m id (if value then 1 else 0)).map (fun p => (p.1, p.2 != 0))

/-- Mirrors manage_option_bool (lines 483-489). -/
def manage_option_bool (m : StateManager Nat) (value : Option Bool) :
    StateManager Nat × Nat :=
  match value with
  | some b => manage_option m (some (if b then 1 else 0))
  | none => manage_option m none

/-- Mirrors get_option_bool (lines 491-497). -/
def get_option_bool (m : StateManager Nat) (id : Nat) : Option (Option Bool) :=
  (get_option m id).map (fun o => o.map (fun v => v != 0))

/-- Mirrors set_option_bool (lines 499-502): delegates to setOption and
returns the argument value. -/
def set_option_bool (m : StateManager Nat) (id : Nat) (value : Bool) :
    Option (StateManager Nat × Bool) :=
  (setOption m id (some (if value then 1 else 0))).map (fun p => (p.1, value))

/-- Mirrors flip_option_bool (lines 467-471) exactly as written: it reads
the current value, unwraps it (none models the panic on a null cell),
calls set_option_bool with that same value, and returns its negation. -/
def flip_option_bool (m : StateManager Nat) (id : Nat) :
    Option (StateManager Nat × Bool) :=
  match get_option_bool m id with
  | none => none
  | some none => none
  | some (some value) =>
      (set_option_bool m id value).map (fun p => (p.1, !value))

end StateManager

/-!
Theorems about the claims.
-/

/-- Every component of the manager other than the two stores touched by a
replay is preserved by folding applyEntry over any list of entries, and
the stores keep their lengths (List.set never changes a length). -/
theorem foldl_applyEntry_frame {α : Type} (l : List (TrailEntry α))
    (m : StateManager α) :
    (l.foldl StateManager.applyEntry m).numbers.length = m.numbers.length ∧
    (l.foldl StateManager.applyEntry m).numbers_option.length
      = m.numbers_option.length ∧
    (l.foldl StateManager.applyEntry m).clock = m.clock ∧
    (l.foldl StateManager.applyEntry m).trail = m.trail ∧
    (l.foldl StateManager.applyEntry m).levels = m.levels := by
  induction l generalizing m with
  | nil => exact ⟨rfl, rfl, rfl, rfl, rfl⟩
  | cons e t ih =>
    cases e with
    | entry st =>
      simpa [StateManager.applyEntry] using ih
        { m with numbers := m.numbers.set st.id st }
    | optionEntry st =>
      simpa [StateManager.applyEntry] using ih
        { m with numbers_option := m.numbers_option.set st.id st }

/-- C10: save_state modifies no cell of any store, leaves the whole trail
unchanged, and only increments the clock and pushes one level recording
the current trail length. -/
theorem claim_C10_save_state_frame {α : Type} (m : StateManager α) :
    (StateManager.save_state m).numbers = m.numbers ∧
    (StateManager.save_state m).numbers_option = m.numbers_option ∧
    (StateManager.save_state m).trail = m.trail ∧
    (StateManager.save_state m).clock = m.clock + 1 ∧
    (StateManager.save_state m).levels
      = { trail_size := m.trail.length } :: m.levels :=
  ⟨rfl, rfl, rfl, rfl, rfl⟩

/-- C6: writing the value a cell already holds is a complete no-op, for
plain and for optional cells: the returned manager is the input manager
itself, so in particular the trail is unchanged and nothing is archived. -/
theorem claim_C6_idempotent_write {α : Type} [DecidableEq α]
    (m : StateManager α) (id : Nat) :
    (∀ c : State α, m.numbers.get? id = some c →
      StateManager.set m id c.value = some (m, c.value)) ∧
    (∀ c : StateOption α, m.numbers_option.get? id = some c →
      StateManager.setOption m id c.value = some (m, c.value)) := by
  refine ⟨fun c h => ?_, fun c h => ?_⟩
  · rw [List.get?_eq_getElem?] at h
    simp [StateManager.set, h]
  · rw [List.get?_eq_getElem?] at h
    simp [StateManager.setOption, h]

/-- Witness for C6 at a concrete input: a fresh manager with one usize
cell holding 7; rewriting 7 returns the manager unchanged. -/
theorem claim_C6_witness :
    StateManager.set (StateManager.manage (StateManager.init Nat) 7).1 0 7 =
      some ((StateManager.manage (StateManager.init Nat) 7).1, 7) :=
  (claim_C6_idempotent_write (StateManager.manage (StateManager.init Nat) 7).1
    0).1 { id := 0, clock := 0, value := 7 } (by rfl)

/-- C9: increment_option and decrement_option on a cell holding none hit
the unwrap and abort (modelled by none), returning no value. -/
theorem claim_C9_null_arith_fatal {α : Type} [DecidableEq α] [Add α] [Sub α]
    [One α] (m : StateManager α) (id : Nat) (st : StateOption α)
    (h : m.numbers_option.get? id = some st) (hv : st.value = none) :
    StateManager.increment_option m id = none ∧
    StateManager.decrement_option m id = none := by
  rw [List.get?_eq_getElem?] at h
  constructor
  · simp [StateManager.increment_option, h, hv]
  · simp [StateManager.decrement_option, h, hv]

/-- Witness for C9 at a concrete input: a fresh manager with one optional
usize cell holding none. -/
theorem claim_C9_witness :
    StateManager.increment_option
      (StateManager.manage_option (StateManager.init Nat) none).1 0 = none ∧
    StateManager.decrement_option
      (StateManager.manage_option (StateManager.init Nat) none).1 0 = none :=
  claim_C9_null_arith_fatal
    (StateManager.manage_option (StateManager.init Nat) none).1 0
    { id := 0, clock := 0, value := none } (by rfl) rfl

/-- C4, divergence of the release build: restoring with only the root
level open does not abort; Vec::pop (whose expect only fires on an empty
stack) happily pops the root level, and the call returns with the levels
stack empty, exactly the silent corruption the claim rules out. The
debug_assert on line 131 exists only in debug builds. -/
theorem claim_C4_root_restore_returns :
    StateManager.restore_state (StateManager.init Nat) =
      some { clock := 0, trail := [], levels := [],
             numbers := [], numbers_option := [] } := by
  rfl

/-- C3, divergence: on a cell holding some false, flip_option_bool leaves
the stored value at false (it calls set_option_bool with the old value,
not its negation) while returning true, so the stored value is not
negated and the returned value differs from the stored one. -/
theorem claim_C3_flip_does_not_flip :
    (StateManager.flip_option_bool
      (StateManager.manage_option_bool (StateManager.init Nat) (some false)).1
      0).map (fun p => (StateManager.get_option_bool p.1 0, p.2)) =
      some (some (some false), true) := by
  rfl

/-- C1, counterexample: a cell created after save_state is still live
after the matching restore_state. Rollback never truncates a store (a
Level records only the trail length), so the handle still addresses the
cell and reads back its value 5, and the store still has length 1. -/
theorem claim_C1_counterexample :
    (StateManager.restore_state
      (StateManager.manage (StateManager.save_state (StateManager.init Nat))
        5).1).map (fun m => (StateManager.get m 0, m.numbers.length)) =
      some (some 5, 1) := by
  rfl

/-- C2, counterexample: after one save_state and the matching
restore_state the clock is 1 while the levels stack has depth 1, so the
clock does not equal the number of open checkpoints: restore_state never
decrements the clock. -/
theorem claim_C2_counterexample :
    (StateManager.restore_state
      (StateManager.save_state (StateManager.init Nat))).map
      (fun m => decide (m.clock = m.levels.length - 1)) = some false := by
  rfl

/-- A list lookup succeeds exactly on indices below the length. -/
theorem get?_isSome_iff {α : Type} (l : List α) (n : Nat) :
    (l.get? n).isSome ↔ n < l.length := by
  rw [List.get?_eq_getElem?]
  rcases Nat.lt_or_ge n l.length with h | h
  · simp [List.getElem?_eq_getElem h, h]
  · simp [List.getElem?_eq_none h]
    omega

/-- C1, amended: rollback is mutation-only, not creation-reversible: a
Level records only the trail length, restore_state truncates only the
trail and leaves every store at its full length, so every handle that
addressed a live cell before the rollback still does afterwards; cells
created after the snapshot are not discarded. -/
theorem claim_C1_amended_stores_survive {α : Type} (m m2 : StateManager α)
    (h : StateManager.restore_state m = some m2) :
    m2.numbers.length = m.numbers.length ∧
    m2.numbers_option.length = m.numbers_option.length ∧
    ∀ id : Nat, (StateManager.get m id).isSome →
      (StateManager.get m2 id).isSome := by
  cases hl : m.levels with
  | nil => simp [StateManager.restore_state, hl] at h
  | cons lv rest =>
    simp only [StateManager.restore_state, hl, Option.some.injEq] at h
    obtain ⟨h1, h2, _, _, _⟩ := foldl_applyEntry_frame
      (m.trail.take (m.trail.length - lv.trail_size)) { m with levels := rest }
    subst h
    refine ⟨h1, h2, fun id hs => ?_⟩
    rw [StateManager.get, Option.isSome_map'] at hs ⊢
    rw [get?_isSome_iff] at hs ⊢
    simpa [h1] using hs

/-- Witness for the amended C1: the cell created after save_state in the
counterexample scenario is still readable after restore_state. -/
theorem claim_C1_witness :
    (StateManager.get
      ({ clock := 1, trail := [], levels := [{ trail_size := 0 }],
         numbers := [{ id := 0, clock := 1, value := 5 }],
         numbers_option := [] } : StateManager Nat) 0).isSome :=
  (claim_C1_amended_stores_survive
    (StateManager.manage (StateManager.save_state (StateManager.init Nat)) 5).1
    { clock := 1, trail := [], levels := [{ trail_size := 0 }],
      numbers := [{ id := 0, clock := 1, value := 5 }], numbers_option := [] }
    (by rfl)).2.2 0 (by rfl)

/-- C2, amended: the clock counts the save_state calls ever made rather
than the open checkpoints: save_state increments it and restore_state
leaves it unchanged while popping the top level; the undo-log part of I6
does hold, as after restore_state the trail length equals the popped
trail_size recorded in the popped level (whenever that recorded length is at most
the current trail length, as it always is in reachable states). -/
theorem claim_C2_amended_clock_count {α : Type} (m m2 : StateManager α)
    (lv : Level) (rest : List Level) (hlv : m.levels = lv :: rest)
    (hle : lv.trail_size ≤ m.trail.length)
    (h : StateManager.restore_state m = some m2) :
    m2.clock = m.clock ∧ m2.levels = rest ∧
    m2.trail.length = lv.trail_size ∧
    (StateManager.save_state m).clock = m.clock + 1 ∧
    (StateManager.save_state m).levels.length = m.levels.length + 1 := by
  simp only [StateManager.restore_state, hlv, Option.some.injEq] at h
  obtain ⟨_, _, hclock, htrail, hlevels⟩ := foldl_applyEntry_frame
    (m.trail.take (m.trail.length - lv.trail_size)) { m with levels := rest }
  subst h
  refine ⟨hclock, hlevels, ?_, rfl, by simp [StateManager.save_state]⟩
  show ((List.foldl StateManager.applyEntry _ _).trail.drop _).length = _
  rw [htrail]
  show ((m.trail.drop (m.trail.length - lv.trail_size))).length = _
  rw [List.length_drop]
  omega

/-- Witness for the amended C2: one save_state followed by restore_state
leaves the clock at 1. -/
theorem claim_C2_witness :
    ({ clock := 1, trail := [], levels := [{ trail_size := 0 }],
       numbers := [], numbers_option := [] } : StateManager Nat).clock =
      (StateManager.save_state (StateManager.init Nat)).clock :=
  (claim_C2_amended_clock_count
    (StateManager.save_state (StateManager.init Nat))
    { clock := 1, trail := [], levels := [{ trail_size := 0 }],
      numbers := [], numbers_option := [] }
    { trail_size := 0 } [{ trail_size := 0 }] rfl (by decide) (by rfl)).1

/-- Writing a list position and reading it back yields the written value. -/
theorem get?_set_self_of_lt {α : Type} (l : List α) (n : Nat) (a : α)
    (h : n < l.length) : (l.set n a).get? n = some a := by
  rw [List.get?_eq_getElem?]
  exact List.getElem?_set_eq_of_lt a h

/-- A set on a valid handle always succeeds, returns the written value,
keeps the clock and the store length, and leaves the cell holding the
written value, whichever of the three branches of set_$u ran. -/
theorem set_spec {α : Type} [DecidableEq α] (m : StateManager α) (id : Nat)
    (c : State α) (v : α) (h : m.numbers.get? id = some c) :
    ∃ m' : StateManager α, StateManager.set m id v = some (m', v) ∧
      m'.clock = m.clock ∧ m'.numbers.length = m.numbers.length ∧
      ∃ c' : State α, m'.numbers.get? id = some c' ∧ c'.value = v := by
  have hlt : id < m.numbers.length := by
    rw [← get?_isSome_iff, h]
    rfl
  have h' := h
  rw [List.get?_eq_getElem?] at h'
  by_cases hv : v = c.value
  · have hs : StateManager.set m id v = some (m, v) := by
      simp [StateManager.set, h', hv]
    exact ⟨m, hs, rfl, rfl, c, h, hv.symm⟩
  · by_cases hc : c.clock < m.clock
    · have hs : StateManager.set m id v =
          some ({ m with trail := TrailEntry.entry c :: m.trail,
                         numbers := m.numbers.set id
                           { id := id, clock := m.clock, value := v } }, v) := by
        simp [StateManager.set, h', hv, hc]
      exact ⟨_, hs, rfl, by simp, _, get?_set_self_of_lt _ _ _ hlt, rfl⟩
    · have hs : StateManager.set m id v =
          some ({ m with numbers := m.numbers.set id { c with value := v } }, v) := by
        simp [StateManager.set, h', hv, hc]
      exact ⟨_, hs, rfl, by simp, _, get?_set_self_of_lt _ _ _ hlt, rfl⟩

/-- C8: on any cell, increment returns the old value plus one and a
subsequent decrement returns the original value, leaving the stored
value at its original; proved for every scalar type whose one-unit
step is inverted by the one-unit step back (any additive group, which
models the wrapping release-build arithmetic of all integer types). -/
theorem claim_C8_inc_dec_inverse {α : Type} [AddGroup α] [One α] [DecidableEq α]
    (m : StateManager α) (id : Nat) (c : State α)
    (h : m.numbers.get? id = some c) :
    ∃ m1 m2 : StateManager α,
      StateManager.increment m id = some (m1, c.value + 1) ∧
      StateManager.decrement m1 id = some (m2, c.value) ∧
      StateManager.get m2 id = some c.value := by
  obtain ⟨m1, hset1, hclk1, hlen1, c1, hc1, hv1⟩ := set_spec m id c (c.value + 1) h
  obtain ⟨m2, hset2, hclk2, hlen2, c2, hc2, hv2⟩ :=
    set_spec m1 id c1 (c1.value - 1) hc1
  have hvv : c1.value - 1 = c.value := by
    rw [hv1]
    exact add_sub_cancel_right _ _
  have hget1 : StateManager.get m id = some c.value := by
    rw [StateManager.get, h]
    rfl
  have hget2 : StateManager.get m1 id = some c1.value := by
    rw [StateManager.get, hc1]
    rfl
  refine ⟨m1, m2, ?_, ?_, ?_⟩
  · rw [StateManager.increment, hget1]
    exact hset1
  · simp only [StateManager.decrement, hget2]
    rw [hset2, hvv]
  · rw [StateManager.get, hc2, Option.map_some', hv2, hvv]

/-- The manager state after incrementing the single Int cell 5 below. -/
def c8m1 : StateManager Int :=
  { clock := 0, trail := [], levels := [{ trail_size := 0 }],
    numbers := [{ id := 0, clock := 0, value := 6 }], numbers_option := [] }

/-- The manager state after the decrement that follows. -/
def c8m2 : StateManager Int :=
  { clock := 0, trail := [], levels := [{ trail_size := 0 }],
    numbers := [{ id := 0, clock := 0, value := 5 }], numbers_option := [] }

/-- Witness for C8 at a concrete input: an Int cell holding 5;
increment yields 6, decrement returns to 5. -/
theorem claim_C8_witness :
    StateManager.increment (StateManager.manage (StateManager.init Int) 5).1 0 =
      some (c8m1, 6) ∧
    StateManager.decrement c8m1 0 = some (c8m2, 5) ∧
    StateManager.get c8m2 0 = some 5 := by
  obtain ⟨m1, m2, h1, h2, h3⟩ := claim_C8_inc_dec_inverse
    (StateManager.manage (StateManager.init Int) 5).1 0
    { id := 0, clock := 0, value := 5 } (by rfl)
  have e1 : m1 = c8m1 := by
    have hc : StateManager.increment (StateManager.manage (StateManager.init Int) 5).1 0 =
        some (c8m1, 5 + 1) := by decide
    have := Option.some.inj (hc.symm.trans h1)
    exact (congrArg Prod.fst this).symm
  rw [e1] at h1 h2
  have e2 : m2 = c8m2 := by
    have hc : StateManager.decrement c8m1 0 = some (c8m2, 5) := by decide
    have := Option.some.inj (hc.symm.trans h2)
    exact (congrArg Prod.fst this).symm
  rw [e2] at h2 h3
  exact ⟨h1, h2, h3⟩

/-- A restore whose popped level records the whole current trail replays
nothing: it only pops the level. -/
theorem restore_no_entries {α : Type} (m : StateManager α) (lv : Level)
    (rest : List Level) (hl : m.levels = lv :: rest)
    (hs : lv.trail_size = m.trail.length) :
    StateManager.restore_state m = some { m with levels := rest } := by
  simp [StateManager.restore_state, hl, hs]

/-- A restore whose popped level records all but the newest trail entry
replays exactly that entry and drops it from the trail. -/
theorem restore_one_entry {α : Type} (m : StateManager α) (lv : Level)
    (rest : List Level) (e : TrailEntry α) (t : List (TrailEntry α))
    (hl : m.levels = lv :: rest) (ht : m.trail = e :: t)
    (hs : lv.trail_size = t.length) :
    StateManager.restore_state m =
      some { StateManager.applyEntry { m with levels := rest } e with
             trail := t } := by
  cases e with
  | entry st =>
    simp [StateManager.restore_state, StateManager.applyEntry, hl, ht, hs]
  | optionEntry st =>
    simp [StateManager.restore_state, StateManager.applyEntry, hl, ht, hs]

/-- C5: stack discipline. From any state whose cell c satisfies the
reachable-state invariants (its id field addresses itself and its clock
is at most the manager clock), the sequence save_state, write v1,
save_state, write v2 followed by one restore_state reads back v1, and a
second restore_state reads back the original value, for every scalar
type and all values v1, v2, including the no-op-write corner cases. -/
theorem claim_C5_stack_discipline {α : Type} [DecidableEq α]
    (m : StateManager α) (id : Nat) (c : State α) (v1 v2 : α)
    (h : m.numbers.get? id = some c) (hid : c.id = id)
    (hcl : c.clock ≤ m.clock) :
    ∃ (m2 m4 m5 m6 : StateManager α),
      StateManager.set (StateManager.save_state m) id v1 = some (m2, v1) ∧
      StateManager.set (StateManager.save_state m2) id v2 = some (m4, v2) ∧
      StateManager.restore_state m4 = some m5 ∧
      StateManager.get m5 id = some v1 ∧
      StateManager.restore_state m5 = some m6 ∧
      StateManager.get m6 id = some c.value := by
  have hlt : id < m.numbers.length := by
    rw [← get?_isSome_iff, h]
    rfl
  have h' := h
  rw [List.get?_eq_getElem?] at h'
  by_cases hv1 : v1 = c.value
  · -- first write is a no-op
    have hset1 : StateManager.set (StateManager.save_state m) id v1 =
        some (StateManager.save_state m, v1) := by
      simp [StateManager.set, StateManager.save_state, h', hv1]
    by_cases hv2 : v2 = c.value
    · -- second write is a no-op as well
      have hset2 : StateManager.set
          (StateManager.save_state (StateManager.save_state m)) id v2 =
          some (StateManager.save_state (StateManager.save_state m), v2) := by
        simp [StateManager.set, StateManager.save_state, h', hv2]
      have hrest1 : StateManager.restore_state
          (StateManager.save_state (StateManager.save_state m)) =
          some { StateManager.save_state (StateManager.save_state m) with
                 levels := { trail_size := m.trail.length } :: m.levels } :=
        restore_no_entries _ _ _ (by simp [StateManager.save_state]) rfl
      have hrest2 : StateManager.restore_state
          ({ StateManager.save_state (StateManager.save_state m) with
             levels := { trail_size := m.trail.length } :: m.levels }) =
          some { StateManager.save_state (StateManager.save_state m) with
                 levels := m.levels } :=
        restore_no_entries _ _ _ rfl rfl
      refine ⟨_, _, _, _, hset1, hset2, hrest1, ?_, hrest2, ?_⟩
      · rw [StateManager.get]
        show (m.numbers.get? id).map State.value = some v1
        rw [h, hv1]
        rfl
      · rw [StateManager.get]
        show (m.numbers.get? id).map State.value = some c.value
        rw [h]
        rfl
    · -- second write archives the original cell
      have hset2 : StateManager.set
          (StateManager.save_state (StateManager.save_state m)) id v2 =
          some ({ clock := m.clock + 1 + 1,
                  trail := TrailEntry.entry c :: m.trail,
                  levels := { trail_size := m.trail.length } ::
                    { trail_size := m.trail.length } :: m.levels,
                  numbers := m.numbers.set id
                    { id := id, clock := m.clock + 1 + 1, value := v2 },
                  numbers_option := m.numbers_option }, v2) := by
        simp [StateManager.set, StateManager.save_state, h', hv2,
          Nat.lt_succ_of_le (Nat.le_succ_of_le hcl)]
      have hrest1 : StateManager.restore_state
          ({ clock := m.clock + 1 + 1,
             trail := TrailEntry.entry c :: m.trail,
             levels := { trail_size := m.trail.length } ::
               { trail_size := m.trail.length } :: m.levels,
             numbers := m.numbers.set id
               { id := id, clock := m.clock + 1 + 1, value := v2 },
             numbers_option := m.numbers_option } : StateManager α) =
          some { clock := m.clock + 1 + 1,
                 trail := m.trail,
                 levels := { trail_size := m.trail.length } :: m.levels,
                 numbers := (m.numbers.set id
                   { id := id, clock := m.clock + 1 + 1, value := v2 }).set id c,
                 numbers_option := m.numbers_option } := by
        rw [restore_one_entry _ { trail_size := m.trail.length }
          ({ trail_size := m.trail.length } :: m.levels)
          (TrailEntry.entry c) m.trail rfl rfl rfl]
        rw [StateManager.applyEntry, hid]
      have hrest2 : StateManager.restore_state
          ({ clock := m.clock + 1 + 1,
             trail := m.trail,
             levels := { trail_size := m.trail.length } :: m.levels,
             numbers := (m.numbers.set id
               { id := id, clock := m.clock + 1 + 1, value := v2 }).set id c,
             numbers_option := m.numbers_option } : StateManager α) =
          some { clock := m.clock + 1 + 1,
                 trail := m.trail,
                 levels := m.levels,
                 numbers := (m.numbers.set id
                   { id := id, clock := m.clock + 1 + 1, value := v2 }).set id c,
                 numbers_option := m.numbers_option } :=
        restore_no_entries _ _ _ rfl rfl
      have hlt2 : id < ((m.numbers.set id
          { id := id, clock := m.clock + 1 + 1, value := v2 })).length := by
        simpa using hlt
      refine ⟨_, _, _, _, hset1, hset2, hrest1, ?_, hrest2, ?_⟩
      · rw [StateManager.get]
        show (((m.numbers.set id _).set id c).get? id).map State.value = some v1
        rw [get?_set_self_of_lt _ _ _ hlt2, hv1]
        rfl
      · rw [StateManager.get]
        show (((m.numbers.set id _).set id c).get? id).map State.value = some c.value
        rw [get?_set_self_of_lt _ _ _ hlt2]
        rfl
  · -- first write archives the original cell
    have hset1 : StateManager.set (StateManager.save_state m) id v1 =
        some ({ clock := m.clock + 1,
                trail := TrailEntry.entry c :: m.trail,
                levels := { trail_size := m.trail.length } :: m.levels,
                numbers := m.numbers.set id
                  { id := id, clock := m.clock + 1, value := v1 },
                numbers_option := m.numbers_option }, v1) := by
      simp [StateManager.set, StateManager.save_state, h', hv1,
        Nat.lt_succ_of_le hcl]
    have hlt1 : id < (m.numbers.set id
        { id := id, clock := m.clock + 1, value := v1 }).length := by
      simpa using hlt
    have hg1 : (m.numbers.set id
        { id := id, clock := m.clock + 1, value := v1 })[id]? =
        some { id := id, clock := m.clock + 1, value := v1 } :=
      List.getElem?_set_eq_of_lt _ hlt
    by_cases hv2 : v2 = v1
    · -- second write is a no-op
      have hset2 : StateManager.set
          (StateManager.save_state
            ({ clock := m.clock + 1,
               trail := TrailEntry.entry c :: m.trail,
               levels := { trail_size := m.trail.length } :: m.levels,
               numbers := m.numbers.set id
                 { id := id, clock := m.clock + 1, value := v1 },
               numbers_option := m.numbers_option } : StateManager α)) id v2 =
          some (StateManager.save_state
            ({ clock := m.clock + 1,
               trail := TrailEntry.entry c :: m.trail,
               levels := { trail_size := m.trail.length } :: m.levels,
               numbers := m.numbers.set id
                 { id := id, clock := m.clock + 1, value := v1 },
               numbers_option := m.numbers_option } : StateManager α), v2) := by
        simp [StateManager.set, StateManager.save_state, hg1, hv2]
      have hrest1 : StateManager.restore_state
          (StateManager.save_state
            ({ clock := m.clock + 1,
               trail := TrailEntry.entry c :: m.trail,
               levels := { trail_size := m.trail.length } :: m.levels,
               numbers := m.numbers.set id
                 { id := id, clock := m.clock + 1, value := v1 },
               numbers_option := m.numbers_option } : StateManager α)) =
          some ({ clock := m.clock + 1 + 1,
                  trail := TrailEntry.entry c :: m.trail,
                  levels := { trail_size := m.trail.length } :: m.levels,
                  numbers := m.numbers.set id
                    { id := id, clock := m.clock + 1, value := v1 },
                  numbers_option := m.numbers_option } : StateManager α) :=
        restore_no_entries _ _ _ (by simp [StateManager.save_state]) rfl
      have hrest2 : StateManager.restore_state
          ({ clock := m.clock + 1 + 1,
             trail := TrailEntry.entry c :: m.trail,
             levels := { trail_size := m.trail.length } :: m.levels,
             numbers := m.numbers.set id
               { id := id, clock := m.clock + 1, value := v1 },
             numbers_option := m.numbers_option } : StateManager α) =
          some { clock := m.clock + 1 + 1,
                 trail := m.trail,
                 levels := m.levels,
                 numbers := (m.numbers.set id
                   { id := id, clock := m.clock + 1, value := v1 }).set id c,
                 numbers_option := m.numbers_option } := by
        rw [restore_one_entry _ { trail_size := m.trail.length } m.levels
          (TrailEntry.entry c) m.trail rfl rfl rfl]
        rw [StateManager.applyEntry, hid]
      refine ⟨_, _, _, _, hset1, hset2, hrest1, ?_, hrest2, ?_⟩
      · rw [StateManager.get]
        show ((m.numbers.set id _).get? id).map State.value = some v1
        rw [List.get?_eq_getElem?, hg1]
        rfl
      · rw [StateManager.get]
        show (((m.numbers.set id _).set id c).get? id).map State.value = some c.value
        rw [get?_set_self_of_lt _ _ _ hlt1]
        rfl
    · -- second write archives the value of the first epoch
      have hset2 : StateManager.set
          (StateManager.save_state
            ({ clock := m.clock + 1,
               trail := TrailEntry.entry c :: m.trail,
               levels := { trail_size := m.trail.length } :: m.levels,
               numbers := m.numbers.set id
                 { id := id, clock := m.clock + 1, value := v1 },
               numbers_option := m.numbers_option } : StateManager α)) id v2 =
          some ({ clock := m.clock + 1 + 1,
                  trail := TrailEntry.entry { id := id, clock := m.clock + 1, value := v1 } ::
                    TrailEntry.entry c :: m.trail,
                  levels := { trail_size := (TrailEntry.entry c :: m.trail).length } ::
                    { trail_size := m.trail.length } :: m.levels,
                  numbers := (m.numbers.set id
                    { id := id, clock := m.clock + 1, value := v1 }).set id
                    { id := id, clock := m.clock + 1 + 1, value := v2 },
                  numbers_option := m.numbers_option }, v2) := by
        simp [StateManager.set, StateManager.save_state, hg1, hv2]
      have hrest1 : StateManager.restore_state
          ({ clock := m.clock + 1 + 1,
             trail := TrailEntry.entry { id := id, clock := m.clock + 1, value := v1 } ::
               TrailEntry.entry c :: m.trail,
             levels := { trail_size := (TrailEntry.entry c :: m.trail).length } ::
               { trail_size := m.trail.length } :: m.levels,
             numbers := (m.numbers.set id
               { id := id, clock := m.clock + 1, value := v1 }).set id
               { id := id, clock := m.clock + 1 + 1, value := v2 },
             numbers_option := m.numbers_option } : StateManager α) =
          some { clock := m.clock + 1 + 1,
                 trail := TrailEntry.entry c :: m.trail,
                 levels := { trail_size := m.trail.length } :: m.levels,
                 numbers := ((m.numbers.set id
                   { id := id, clock := m.clock + 1, value := v1 }).set id
                   { id := id, clock := m.clock + 1 + 1, value := v2 }).set id
                   { id := id, clock := m.clock + 1, value := v1 },
                 numbers_option := m.numbers_option } := by
        rw [restore_one_entry _ { trail_size := (TrailEntry.entry c :: m.trail).length }
          ({ trail_size := m.trail.length } :: m.levels)
          (TrailEntry.entry { id := id, clock := m.clock + 1, value := v1 })
          (TrailEntry.entry c :: m.trail) rfl rfl rfl]
        rw [StateManager.applyEntry]
      have hrest2 : StateManager.restore_state
          ({ clock := m.clock + 1 + 1,
             trail := TrailEntry.entry c :: m.trail,
             levels := { trail_size := m.trail.length } :: m.levels,
             numbers := ((m.numbers.set id
               { id := id, clock := m.clock + 1, value := v1 }).set id
               { id := id, clock := m.clock + 1 + 1, value := v2 }).set id
               { id := id, clock := m.clock + 1, value := v1 },
             numbers_option := m.numbers_option } : StateManager α) =
          some { clock := m.clock + 1 + 1,
                 trail := m.trail,
                 levels := m.levels,
                 numbers := (((m.numbers.set id
                   { id := id, clock := m.clock + 1, value := v1 }).set id
                   { id := id, clock := m.clock + 1 + 1, value := v2 }).set id
                   { id := id, clock := m.clock + 1, value := v1 }).set id c,
                 numbers_option := m.numbers_option } := by
        rw [restore_one_entry _ { trail_size := m.trail.length } m.levels
          (TrailEntry.entry c) m.trail rfl rfl rfl]
        rw [StateManager.applyEntry, hid]
      have hlt3 : id < ((m.numbers.set id
          { id := id, clock := m.clock + 1, value := v1 }).set id
          { id := id, clock := m.clock + 1 + 1, value := v2 }).length := by
        simpa using hlt
      have hlt4 : id < (((m.numbers.set id
          { id := id, clock := m.clock + 1, value := v1 }).set id
          { id := id, clock := m.clock + 1 + 1, value := v2 }).set id
          { id := id, clock := m.clock + 1, value := v1 }).length := by
        simpa using hlt
      refine ⟨_, _, _, _, hset1, hset2, hrest1, ?_, hrest2, ?_⟩
      · rw [StateManager.get]
        show ((((m.numbers.set id _).set id _).set id _).get? id).map State.value
          = some v1
        rw [get?_set_self_of_lt _ _ _ hlt3]
        rfl
      · rw [StateManager.get]
        show (((((m.numbers.set id _).set id _).set id _).set id c).get? id).map
          State.value = some c.value
        rw [get?_set_self_of_lt _ _ _ hlt4]
        rfl

/-- Witness for C5: Scenario A of the spec, a usize cell 0, writes of 20
and 42 under two snapshots, reading 20 and then 0 after the rollbacks. -/
theorem claim_C5_witness :
    ∃ (m2 m4 m5 m6 : StateManager Nat),
      StateManager.set (StateManager.save_state
        (StateManager.manage (StateManager.init Nat) 0).1) 0 20 =
        some (m2, 20) ∧
      StateManager.set (StateManager.save_state m2) 0 42 = some (m4, 42) ∧
      StateManager.restore_state m4 = some m5 ∧
      StateManager.get m5 0 = some 20 ∧
      StateManager.restore_state m5 = some m6 ∧
      StateManager.get m6 0 = some 0 :=
  claim_C5_stack_discipline (StateManager.manage (StateManager.init Nat) 0).1 0
    { id := 0, clock := 0, value := 0 } 20 42 (by rfl) rfl (by decide)

/-- Iterates set_$u on one cell for a whole list of values, modelling N
successive writes to the same cell within one epoch (no save_state in
between); none propagates the panic of any failing write. -/
def setMany {α : Type} [DecidableEq α] (m : StateManager α) (id : Nat) :
    List α → Option (StateManager α)
  | [] => some m
  | v :: vs =>
    match StateManager.set m id v with
    | none => none
    | some (m', _) => setMany m' id vs

/-- One set on a valid handle either leaves the trail untouched and the
cell clock unchanged, or (only when the cell clock is older than the
manager clock) pushes exactly one entry and stamps the cell with the
manager clock; the manager clock itself never changes. -/
theorem set_trail_growth {α : Type} [DecidableEq α] (m : StateManager α)
    (id : Nat) (c : State α) (v : α) (h : m.numbers.get? id = some c) :
    ∃ m' c', StateManager.set m id v = some (m', v) ∧
      m'.clock = m.clock ∧ m'.numbers.get? id = some c' ∧
      ((m'.trail = m.trail ∧ c'.clock = c.clock) ∨
       (m'.trail.length = m.trail.length + 1 ∧ c'.clock = m.clock ∧
        c.clock < m.clock)) := by
  have hlt : id < m.numbers.length := by
    rw [← get?_isSome_iff, h]
    rfl
  have h' := h
  rw [List.get?_eq_getElem?] at h'
  by_cases hv : v = c.value
  · have hs : StateManager.set m id v = some (m, v) := by
      simp [StateManager.set, h', hv]
    exact ⟨m, c, hs, rfl, h, Or.inl ⟨rfl, rfl⟩⟩
  · by_cases hc : c.clock < m.clock
    · have hs : StateManager.set m id v =
          some ({ m with trail := TrailEntry.entry c :: m.trail,
                         numbers := m.numbers.set id
                           { id := id, clock := m.clock, value := v } }, v) := by
        simp [StateManager.set, h', hv, hc]
      exact ⟨_, _, hs, rfl, get?_set_self_of_lt _ _ _ hlt,
        Or.inr ⟨by simp, rfl, hc⟩⟩
    · have hs : StateManager.set m id v =
          some ({ m with numbers := m.numbers.set id { c with value := v } }, v) := by
        simp [StateManager.set, h', hv, hc]
      exact ⟨_, _, hs, rfl, get?_set_self_of_lt _ _ _ hlt, Or.inl ⟨rfl, rfl⟩⟩

/-- Once the cell clock is not older than the manager clock, any number
of further writes to that cell archives nothing: the trail stays
exactly as it was. -/
theorem setMany_no_archive {α : Type} [DecidableEq α] (vs : List α) :
    ∀ (m m' : StateManager α) (id : Nat) (c : State α),
      m.numbers.get? id = some c → ¬ c.clock < m.clock →
      setMany m id vs = some m' → m'.trail = m.trail := by
  induction vs with
  | nil =>
    intro m m' id c _ _ hs
    rw [setMany] at hs
    exact (Option.some.inj hs).symm ▸ rfl
  | cons v vs ih =>
    intro m m' id c h hcl hs
    obtain ⟨m1, c', hset, hclk, hc', hcase⟩ := set_trail_growth m id c v h
    rw [setMany, hset] at hs
    rcases hcase with ⟨htr, hck⟩ | ⟨_, _, hlt⟩
    · have : m'.trail = m1.trail := by
        refine ih m1 m' id c' hc' ?_ hs
        rw [hck, hclk]
        exact hcl
      rw [this, htr]
    · exact absurd hlt hcl

/-- C7: first-write-per-epoch. Any number of writes to one cell with no
intervening save_state grows the trail by at most one entry: only the
first value-changing write can archive the cell, after which the cell
carries the current clock and later writes update in place. -/
theorem claim_C7_first_write_per_epoch {α : Type} [DecidableEq α]
    (vs : List α) : ∀ (m m' : StateManager α) (id : Nat),
    setMany m id vs = some m' → m'.trail.length ≤ m.trail.length + 1 := by
  induction vs with
  | nil =>
    intro m m' id hs
    rw [setMany] at hs
    cases Option.some.inj hs
    exact Nat.le_succ _
  | cons v vs ih =>
    intro m m' id hs
    cases hg : m.numbers.get? id with
    | none =>
      rw [setMany] at hs
      rw [List.get?_eq_getElem?] at hg
      simp [StateManager.set, hg] at hs
    | some c =>
      obtain ⟨m1, c', hset, hclk, hc', hcase⟩ := set_trail_growth m id c v hg
      rw [setMany, hset] at hs
      rcases hcase with ⟨htr, _⟩ | ⟨hlen, hck, _⟩
      · have := ih m1 m' id hs
        rw [htr] at this
        exact this
      · have hstable : m'.trail = m1.trail := by
          refine setMany_no_archive vs m1 m' id c' hc' ?_ hs
          rw [hck, hclk]
          exact Nat.lt_irrefl _
        rw [hstable, hlen]

/-- Witness for C7: three successive writes to a fresh usize cell under
one snapshot leave exactly one trail entry. -/
theorem claim_C7_witness :
    ({ clock := 1,
       trail := [TrailEntry.entry { id := 0, clock := 0, value := 0 }],
       levels := [{ trail_size := 0 }, { trail_size := 0 }],
       numbers := [{ id := 0, clock := 1, value := 3 }],
       numbers_option := [] } : StateManager Nat).trail.length ≤
      (StateManager.save_state
        (StateManager.manage (StateManager.init Nat) 0).1).trail.length + 1 :=
  claim_C7_first_write_per_epoch [1, 2, 3]
    (StateManager.save_state (StateManager.manage (StateManager.init Nat) 0).1)
    _ 0 (by rfl)
